import Mathlib

/-!
Verification of the provider-abstraction and build-orchestration engine of the
logs-streaming agent.  The definitions below are a shallow embedding of the
JavaScript/TypeScript sources: `JenkinsProvider` (trigger, status
classification, incremental log streaming, webhook normalization),
`PluginRegistry` (registration/lookup), the Kafka build handler (provider
resolution, entity auto-creation), and the deploy-service orchestrator
(stage-transition dedup, post-stream completion polling).
-/

namespace LogsStreaming

/-! ## Shared data model -/

/-- The shared build-status enumeration (`BuildStatus` string union in the
TypeScript sources). -/
inductive BuildStatus where
  | pending
  | running
  | success
  | failure
  | cancelled
deriving DecidableEq, Repr

/-- The string form of a `BuildStatus`, as it appears at runtime in JS. -/
def BuildStatus.toStr : BuildStatus → String
  | .pending => "pending"
  | .running => "running"
  | .success => "success"
  | .failure => "failure"
  | .cancelled => "cancelled"

/-- The `BuildInfo` returned by `triggerBuild`. -/
structure BuildInfo where
  buildId : String
  buildNumber : Nat
  buildUrl : String
deriving DecidableEq, Repr

/-- The fields of the Jenkins build-API JSON consumed by `getBuildStatus`
(`data.building`, `data.result`, `data.number`, `data.duration`,
`data.timestamp`).  `result` is `null` while the build runs, hence an
`Option`. -/
structure JenkinsBuildJson where
  number : Nat
  building : Bool
  result : Option String
  duration : Nat
  timestamp : Nat
deriving DecidableEq, Repr

/-- The `BuildStatusInfo` as returned by `JenkinsProvider.getBuildStatus`. -/
structure BuildStatusInfo where
  buildId : String
  buildNumber : Nat
  status : BuildStatus
  result : Option String
  building : Bool
  duration : Nat
  timestamp : Nat
deriving DecidableEq, Repr

/-! ## JavaScript truthiness helpers

The sources lean on `a || b` defaulting, where `0`, `""`, `null` and
`undefined` are falsy.  We model absent values as `none` and mirror the
falsiness of `0` and `""`. -/

/-- Evaluation of `v || d` for an optional string (`""` is falsy in JS). -/
def jsOrStr (v : Option String) (d : String) : String :=
  match v with
  | some s => if s = "" then d else s
  | none => d

/-- Evaluation of `v || d` for an optional number (`0` is falsy in JS). -/
def jsOrNat (v : Option Nat) (d : Nat) : Nat :=
  match v with
  | some n => if n = 0 then d else n
  | none => d

/-- Evaluation of `v || null` for an optional number (`0` collapses to `null`). -/
def jsOrNull (v : Option Nat) : Option Nat :=
  match v with
  | some n => if n = 0 then none else some n
  | none => none

/-! ## JenkinsProvider.triggerBuild -/

/-- Endpoint selection in `triggerBuild`: `buildWithParameters` when the
parameter map is non-empty, plain `build` otherwise
(`const endpoint = hasParameters ? 'buildWithParameters' : 'build'`). -/
def triggerEndpoint (parameters : List (String × String)) : String :=
  if parameters.length > 0 then "buildWithParameters" else "build"

/-- The path posted to by `triggerBuild`. -/
def triggerRequestPath (jobName : String) (parameters : List (String × String)) : String :=
  "/job/" ++ jobName ++ "/" ++ triggerEndpoint parameters

/-- Model of `JenkinsProvider.triggerBuild`, abstracted over the remote's answer to the
follow-up `api/json` query (`response.data.lastBuild?.number`).  Returns the
path the trigger was posted to together with the `BuildInfo` built from the
latest build number, or the error raised when no build number is resolved. -/
def triggerBuild (jenkinsUrl jobName : String) (parameters : List (String × String))
    (lastBuildNumber : Option Nat) : Except String (String × BuildInfo) :=
  match lastBuildNumber with
  | none => Except.error "No build number returned from Jenkins"
  | some n =>
      Except.ok
        (triggerRequestPath jobName parameters,
         { buildId := toString n
           buildNumber := n
           buildUrl := jenkinsUrl ++ "/job/" ++ jobName ++ "/" ++ toString n })

/-! ## JenkinsProvider.getBuildStatus -/

/-- The status classification inside `getBuildStatus`: `building` first, then
the native result code chain, defaulting to `pending`. -/
def classifyBuildStatus (building : Bool) (result : Option String) : BuildStatus :=
  if building then .running
  else if result = some "SUCCESS" then .success
  else if result = some "FAILURE" then .failure
  else if result = some "ABORTED" then .cancelled
  else .pending

/-- Model of `JenkinsProvider.getBuildStatus`, abstracted over the build-API JSON. -/
def getBuildStatus (buildId : String) (data : JenkinsBuildJson) : BuildStatusInfo :=
  { buildId := buildId
    buildNumber := data.number
    status := classifyBuildStatus data.building data.result
    result := data.result
    building := data.building
    duration := data.duration
    timestamp := data.timestamp }

/-! ## Stage relay (`handleDeployService` / `checkStages`)

`handleDeployService` keeps `const seenStages = new Set()` and, on every
snapshot returned by `getAllStages`, reports each stage whose key
`` `${stage.name}-${stage.status}` `` is not in the set and whose status is
not `NOT_EXECUTED`, adding the key to the set.  Snapshots are the input; the
relay below is that loop with the set threaded explicitly. -/

/-- One entry of a stage-list snapshot (`{name, status, durationMillis}`). -/
structure StageInfo where
  name : String
  status : String
  durationMillis : Option Nat
deriving DecidableEq, Repr

/-- The dedup key used by `checkStages`:
`` `${stage.name}-${stage.status}` ``. -/
def stageKey (s : StageInfo) : String :=
  s.name ++ "-" ++ s.status

/-- One `checkStages` pass over a single snapshot: returns the grown
`seenStages` set (as a list of keys) and the stages reported to the sink
during this pass, in order. -/
def checkStages (seen : List String) : List StageInfo → List String × List StageInfo
  | [] => (seen, [])
  | stage :: rest =>
      if stageKey stage ∈ seen ∨ stage.status = "NOT_EXECUTED" then
        checkStages seen rest
      else
        ((checkStages (stageKey stage :: seen) rest).1,
         stage :: (checkStages (stageKey stage :: seen) rest).2)

/-- The stage relay over a whole run: fold `checkStages` over the sequence of
snapshots observed by the 1-second polling loop, collecting every stage
reported to the sink. -/
def runStageRelay (seen : List String) : List (List StageInfo) → List StageInfo
  | [] => []
  | snap :: snaps =>
      (checkStages seen snap).2 ++ runStageRelay (checkStages seen snap).1 snaps

/-! ## Completion polling after the log stream (`handleDeployService`)

After `streamLogs` resolves, the orchestrator loops
`while (!buildComplete) { wait 2000; buildComplete = getBuildStatus(n).building === false }`
and only then performs the final `getBuildStatus` fetch and reports the
terminal `Build ${result} (${duration}s)` label.  We model the observable
events of this phase over the finite list of statuses the successive
`getBuildStatus` calls return (an exhausted list models a remote that still
reports `building`). -/

/-- Observable events of the post-stream completion phase. -/
inductive OrchestratorEvent where
  | wait (ms : Nat)
  | pollStatus (building : Bool)
  | reportTerminal (result : Option String) (durationMs : Nat)
deriving DecidableEq, Repr

/-- The final fetch and terminal report (steps after the wait loop exits). -/
def finalReport : List JenkinsBuildJson → List OrchestratorEvent
  | [] => []
  | f :: _ => [.pollStatus f.building, .reportTerminal f.result f.duration]

/-- The wait-until-not-building loop followed by the terminal report, as the
sequence of events it produces while consuming successive `getBuildStatus`
answers. -/
def waitForCompletion : List JenkinsBuildJson → List OrchestratorEvent
  | [] => []
  | s :: rest =>
      .wait 2000 :: .pollStatus s.building ::
        (if s.building then waitForCompletion rest else finalReport rest)

/-! ## Incremental log streaming (`JenkinsProvider.streamLogs`)

The client loops on the `progressiveText` endpoint: each successful poll
returns the console text from the requested offset, the `x-text-size` header
(the new offset) and the `x-more-data` header; a non-empty chunk is passed to
`onLogChunk`, the offset advances, and the consecutive-error counter resets.
A failed poll bumps the counter; at `maxConsecutiveErrors` the stream fails
with `Failed to stream logs after 5 attempts`, otherwise it retries at the
same offset.  We embed log text as `List Char` and run the loop over a finite
trace of poll outcomes; each successful outcome carries the server-side
console text at that moment (the endpoint answers with `text.drop start` and
`x-text-size = text.length`). -/

/-- The server state answering one successful `progressiveText` poll:
the full console text so far and the `x-more-data` flag. -/
structure LogPoll where
  text : List Char
  more : Bool
deriving DecidableEq, Repr

/-- One poll either succeeds with a `LogPoll` or fails (network error). -/
inductive PollOutcome where
  | ok (p : LogPoll)
  | err
deriving DecidableEq, Repr

/-- Result of running `streamLogs` over a trace: the chunks delivered to
`onLogChunk` with the number of requests issued, a rejection with its error
message and request count, or `truncated` when the trace ended while the loop
would have kept polling. -/
inductive StreamResult where
  | finished (chunks : List (List Char)) (requests : Nat)
  | failed (msg : String) (requests : Nat)
  | truncated
deriving DecidableEq, Repr

/-- The bound `const maxConsecutiveErrors = 5`. -/
def maxConsecutiveErrors : Nat := 5

/-- Account for one issued request on the result of the remaining loop. -/
def afterPoll (emitted : List (List Char)) : StreamResult → StreamResult
  | .finished cs n => .finished (emitted ++ cs) (n + 1)
  | .failed m n => .failed m (n + 1)
  | .truncated => .truncated

/-- Model of `JenkinsProvider.streamLogs` over a trace of poll outcomes, carrying the
current `start` offset and the `consecutiveErrors` counter. -/
def streamLogs : List PollOutcome → Nat → Nat → StreamResult
  | [], _, _ => .truncated
  | .ok p :: rest, start, _ =>
      let chunk := p.text.drop start
      let emitted := if chunk = [] then ([] : List (List Char)) else [chunk]
      if p.more then afterPoll emitted (streamLogs rest p.text.length 0)
      else .finished emitted 1
  | .err :: rest, start, errs =>
      if maxConsecutiveErrors ≤ errs + 1 then
        .failed ("Failed to stream logs after " ++ toString maxConsecutiveErrors ++ " attempts") 1
      else afterPoll [] (streamLogs rest start (errs + 1))

/-- Model of `JenkinsProvider.getCompleteLogs`, which hits `consoleText` for a finished build:
in the trace model this is the console text at the first poll whose
`x-more-data` flag is off (the text is final from that point on). -/
def getCompleteLogs : List PollOutcome → Option (List Char)
  | [] => none
  | .ok p :: rest => if p.more then getCompleteLogs rest else some p.text
  | .err :: rest => getCompleteLogs rest

/-! ## PluginRegistry -/

/-- A constructed provider instance as the registry sees it: its declared
name, whether its `validateConfig()` passes, and a tag distinguishing
instances. -/
structure Provider where
  name : String
  valid : Bool
  tag : Nat
deriving DecidableEq, Repr

/-- The `Map.set` semantics: replace the entry in place when the key exists
(keys are unique in a JS `Map`), append otherwise. -/
def mapSet : List (String × Provider) → String → Provider → List (String × Provider)
  | [], k, v => [(k, v)]
  | e :: m, k, v => if e.1 = k then (k, v) :: m else e :: mapSet m k v

/-- Model of `PluginRegistry.getProvider` (`this.providers.get(name) || null`). -/
def getProvider (m : List (String × Provider)) (name : String) : Option Provider :=
  m.lookup name

/-- Model of `PluginRegistry.getProviderNames` (`Array.from(this.providers.keys())`). -/
def getProviderNames (m : List (String × Provider)) : List String :=
  m.map (fun e => e.1)

/-- Model of `PluginRegistry.register`: construct, `validateConfig()` (before the map
is touched), then `set`.  Returns the registry map after the call and whether
registration succeeded (`false` models the rethrown validation error). -/
def register (m : List (String × Provider)) (p : Provider) :
    List (String × Provider) × Bool :=
  if p.valid then (mapSet m p.name p, true) else (m, false)

/-! ## Build handler: provider resolution (`handleBuildAction`) -/

/-- The `Array.join(', ')` of the registered names. -/
def joinComma : List String → String
  | [] => ""
  | [a] => a
  | a :: rest => a ++ ", " ++ joinComma rest

/-- The error message thrown for an unknown provider. -/
def unknownProviderMessage (name : String) (names : List String) : String :=
  "CI/CD provider '" ++ name ++ "' is not registered. Available providers: " ++
    joinComma names

/-- Resolution of `props.provider || props.ci_provider || 'jenkins'`. -/
def resolveProviderName (provider ci_provider : Option String) : String :=
  jsOrStr provider (jsOrStr ci_provider "jenkins")

/-- The later steps of `handleBuildAction`, as observable step tags. -/
inductive BuildStep where
  | trigger
  | streamLogs
  | pollStatus
  | report
deriving DecidableEq, Repr

/-- The provider-resolution head of `handleBuildAction`: resolve the name,
look it up, and either fail with the enumerating error before anything else
runs, or proceed to the trigger → stream → poll → report pipeline. -/
def handleBuildAction (provider ci_provider : Option String)
    (registry : List (String × Provider)) : Except String (List BuildStep) :=
  match getProvider registry (resolveProviderName provider ci_provider) with
  | none =>
      Except.error
        (unknownProviderMessage (resolveProviderName provider ci_provider)
          (getProviderNames registry))
  | some _ =>
      Except.ok [BuildStep.trigger, BuildStep.streamLogs, BuildStep.pollStatus,
        BuildStep.report]

/-! ## Build handler: entity auto-creation on success (`handleBuildAction`)

On the success branch (after the terminal label has been reported and the
success log emitted), `handleBuildAction` optionally runs
`blueprintHandler.createEntity(...)` inside its own `try`.  The catch clause
reads `entityError.message` — for a thrown plain string this property is
`undefined` and the template renders the text `undefined` — logs one
`logger.warn` and one `WARNING`-status sink log, and does not rethrow. -/

/-- A thrown JavaScript value: a proper `Error` (with a `message`) or a plain
string. -/
inductive JsVal where
  | errObj (message : String)
  | str (s : String)
deriving DecidableEq, Repr

/-- Reading `v.message` interpolated into a template literal: the message of an
`Error`, the text `undefined` for a plain string. -/
def jsMessage : JsVal → String
  | .errObj m => m
  | .str _ => "undefined"

/-- A sink/log event emitted by the success tail of the handler. -/
inductive SinkEvent where
  | loggerWarn (msg : String)
  | sinkLog (msg : String) (level : Option String)
  | reportTerminal (label : String)
deriving DecidableEq, Repr

/-- The entity-creation attempt: the `try { createEntity } catch` block, over
the outcome of the upsert call. -/
def entityPhase (entityIdentifier blueprintId : String)
    (upsert : Except JsVal Unit) : List SinkEvent :=
  SinkEvent.sinkLog "Creating/updating entity in Port..." none ::
    match upsert with
    | Except.ok _ =>
        [SinkEvent.sinkLog
          ("Entity '" ++ entityIdentifier ++ "' created/updated in blueprint '" ++
            blueprintId ++ "'") (some "SUCCESS")]
    | Except.error e =>
        [SinkEvent.loggerWarn ("Failed to create entity: " ++ jsMessage e),
         SinkEvent.sinkLog ("Warning: Failed to create entity: " ++ jsMessage e)
           (some "WARNING")]

/-- The tail of `handleBuildAction` once the build succeeded: the terminal
label is already reported, the success log emitted, then the entity phase
runs.  The `Bool` says whether the handler completes without throwing. -/
def buildSuccessTail (buildNumber : Nat) (result : String)
    (entityIdentifier blueprintId : String) (upsert : Except JsVal Unit) :
    List SinkEvent × Bool :=
  (SinkEvent.reportTerminal ("Build " ++ result) ::
     SinkEvent.sinkLog ("Successfully completed build #" ++ toString buildNumber ++ "!") none ::
     entityPhase entityIdentifier blueprintId upsert,
   true)

/-- Is this event a `logger.warn`? -/
def SinkEvent.isWarn : SinkEvent → Bool
  | .loggerWarn _ => true
  | _ => false

/-! ## Webhook parsing and normalization (`JenkinsProvider`) -/

/-- The fields of a Jenkins webhook payload read by `parseWebhookPayload`;
every one may be absent. -/
structure WebhookPayload where
  buildNumber : Option Nat
  buildUrl : Option String
  jobName : Option String
  status : Option String
  duration : Option Nat
  timestamp : Option Nat
deriving DecidableEq, Repr

/-- The `Partial<NormalizedBuildData>` shape produced/consumed by the Jenkins
provider. -/
structure PartialBuildData where
  buildId : Option String
  buildNumber : Option Nat
  buildUrl : Option String
  jobName : Option String
  status : Option BuildStatus
  result : Option String
  duration : Option Nat
  timestamp : Option Nat
deriving DecidableEq, Repr

/-- The `NormalizedBuildData` record (the fields the Jenkins provider populates). -/
structure NormalizedBuildData where
  provider : String
  buildId : String
  buildNumber : Nat
  buildUrl : String
  status : BuildStatus
  result : String
  duration : Option Nat
  timestamp : Nat
  jobName : String
deriving DecidableEq, Repr

/-- Model of `mapJenkinsStatus`: the status lookup table with `pending` as fallback
(`statusMap[jenkinsStatus] || 'pending'`; an absent argument also falls
through to `pending`). -/
def mapJenkinsStatus (s : Option String) : BuildStatus :=
  if s = some "STARTED" then .running
  else if s = some "IN_PROGRESS" then .running
  else if s = some "SUCCESS" then .success
  else if s = some "FAILURE" then .failure
  else if s = some "UNSTABLE" then .failure
  else if s = some "ABORTED" then .cancelled
  else .pending

/-- Model of `JenkinsProvider.parseWebhookPayload`. -/
def parseWebhookPayload (payload : WebhookPayload) : PartialBuildData :=
  { buildId := payload.buildNumber.map toString
    buildNumber := payload.buildNumber
    buildUrl := payload.buildUrl
    jobName := payload.jobName
    status := some (mapJenkinsStatus payload.status)
    result := payload.status
    duration := payload.duration
    timestamp := payload.timestamp }

/-- Model of `JenkinsProvider.normalizeBuildData`.  The ambient clock is passed in as
`now`: the source defaults `timestamp` to `Date.now()`
(`providerData.timestamp || Date.now()`). -/
def normalizeBuildData (jobNameCfg : String) (p : PartialBuildData) (now : Nat) :
    NormalizedBuildData :=
  { provider := "jenkins"
    buildId := jsOrStr (p.buildNumber.map toString) ""
    buildNumber := jsOrNat p.buildNumber 0
    buildUrl := jsOrStr p.buildUrl ""
    status := mapJenkinsStatus
      (some (jsOrStr p.result (jsOrStr (p.status.map BuildStatus.toStr) "")))
    result := jsOrStr p.result ""
    duration := jsOrNull p.duration
    timestamp := jsOrNat p.timestamp now
    jobName := jsOrStr p.jobName jobNameCfg }

/-! ## Theorems -/

/-- C5: `triggerBuild` with an empty parameter map posts to the `build`
endpoint, with at least one key to `buildWithParameters`; in both cases the
returned `BuildInfo.buildId` is the native build number as a string, and for
native build number 42 the `buildId` is `"42"` and the `buildUrl` contains
`"42"`. -/
theorem triggerBuild_endpoints_and_buildId :
    triggerEndpoint [] = "build" ∧
    (∀ ps : List (String × String), ps ≠ [] → triggerEndpoint ps = "buildWithParameters") ∧
    (∀ url job ps n, triggerBuild url job ps (some n) =
      Except.ok (triggerRequestPath job ps,
        { buildId := toString n, buildNumber := n,
          buildUrl := url ++ "/job/" ++ job ++ "/" ++ toString n })) ∧
    (∀ url job ps, ∃ bi,
      triggerBuild url job ps (some 42) = Except.ok (triggerRequestPath job ps, bi) ∧
      bi.buildId = "42" ∧ ∃ pre post, pre ++ "42" ++ post = bi.buildUrl) := by
  refine ⟨rfl, ?_, fun url job ps n => rfl, ?_⟩
  · intro ps h
    cases ps with
    | nil => exact absurd rfl h
    | cons a l => simp [triggerEndpoint]
  · intro url job ps
    refine ⟨_, rfl, rfl, url ++ "/job/" ++ job ++ "/", "", ?_⟩
    show url ++ "/job/" ++ job ++ "/" ++ "42" ++ "" = url ++ "/job/" ++ job ++ "/" ++ toString 42
    simp only [String.append_empty]
    rfl

/-- Witness for C5 at concrete inputs. -/
theorem triggerBuild_endpoints_and_buildId_witness :
    triggerEndpoint [("SERVICE_NAME", "svc")] = "buildWithParameters" ∧
    triggerBuild "http://jenkins" "test-job" [] (some 42) =
      Except.ok (triggerRequestPath "test-job" [],
        { buildId := toString 42, buildNumber := 42,
          buildUrl := "http://jenkins" ++ "/job/" ++ "test-job" ++ "/" ++ toString 42 }) :=
  ⟨triggerBuild_endpoints_and_buildId.2.1 [("SERVICE_NAME", "svc")] (by decide),
   triggerBuild_endpoints_and_buildId.2.2.1 "http://jenkins" "test-job" [] 42⟩

/-- C6 counterexample: the classification is not a pure function of the
result code — when the response still reports `building`, a native
`"SUCCESS"` result classifies as `running`, not `success`, because the
`data.building` branch comes first. -/
theorem classifyBuildStatus_building_overrides_result :
    classifyBuildStatus true (some "SUCCESS") = BuildStatus.running ∧
    classifyBuildStatus true (some "SUCCESS") ≠ BuildStatus.success := by
  decide

/-- C6 (amended): `getBuildStatus` classifies deterministically from the
native response; for responses with `building = false`, `"ABORTED"` maps to
`cancelled`, `"SUCCESS"` to `success`, and any result code outside
the recognized set to `pending`; when `building = true` the status is
`running` regardless of the result code. -/
theorem getBuildStatus_classification :
    (∀ id data, (getBuildStatus id data).status =
      classifyBuildStatus data.building data.result) ∧
    classifyBuildStatus false (some "ABORTED") = BuildStatus.cancelled ∧
    classifyBuildStatus false (some "SUCCESS") = BuildStatus.success ∧
    (∀ r : Option String, r ≠ some "SUCCESS" → r ≠ some "FAILURE" →
      r ≠ some "ABORTED" → classifyBuildStatus false r = BuildStatus.pending) ∧
    (∀ r, classifyBuildStatus true r = BuildStatus.running) := by
  refine ⟨fun id data => rfl, by decide, by decide, ?_, fun r => rfl⟩
  intro r h1 h2 h3
  simp [classifyBuildStatus, h1, h2, h3]

/-- Witness for C6 (amended) at a concrete unrecognized result code. -/
theorem getBuildStatus_classification_witness :
    classifyBuildStatus false (some "UNSTABLE") = BuildStatus.pending :=
  getBuildStatus_classification.2.2.2.1 (some "UNSTABLE") (by decide) (by decide)
    (by decide)

/-- The keys in the set returned by a `checkStages` pass are the input set
plus the keys of the stages reported during the pass. -/
theorem checkStages_seen_mem (snap : List StageInfo) :
    ∀ (seen : List String) (k : String),
      k ∈ (checkStages seen snap).1 ↔
        k ∈ (checkStages seen snap).2.map stageKey ∨ k ∈ seen := by
  induction snap with
  | nil => intro seen k; simp [checkStages]
  | cons stage rest ih =>
      intro seen k
      by_cases h : stageKey stage ∈ seen ∨ stage.status = "NOT_EXECUTED"
      · simp only [checkStages, if_pos h]
        exact ih seen k
      · simp only [checkStages, if_neg h, List.map_cons, List.mem_cons]
        rw [ih (stageKey stage :: seen) k]
        simp only [List.mem_cons]
        tauto

/-- A single `checkStages` pass reports pairwise-distinct keys, none of which
was already in the set, and never reports the `NOT_EXECUTED` sentinel. -/
theorem checkStages_reports (snap : List StageInfo) :
    ∀ seen : List String,
      ((checkStages seen snap).2.map stageKey).Nodup ∧
      (∀ k ∈ (checkStages seen snap).2.map stageKey, k ∉ seen) ∧
      (∀ s ∈ (checkStages seen snap).2, s.status ≠ "NOT_EXECUTED") := by
  induction snap with
  | nil => intro seen; simp [checkStages]
  | cons stage rest ih =>
      intro seen
      by_cases h : stageKey stage ∈ seen ∨ stage.status = "NOT_EXECUTED"
      · simpa only [checkStages, if_pos h] using ih seen
      · push_neg at h
        obtain ⟨hkey, hne⟩ := h
        have hcond : ¬(stageKey stage ∈ seen ∨ stage.status = "NOT_EXECUTED") := by
          push_neg; exact ⟨hkey, hne⟩
        obtain ⟨hnd, hfresh, hstat⟩ := ih (stageKey stage :: seen)
        simp only [checkStages, if_neg hcond, List.map_cons]
        refine ⟨?_, ?_, ?_⟩
        · refine List.nodup_cons.mpr ⟨?_, hnd⟩
          intro hmem
          exact (hfresh _ hmem) (List.mem_cons_self _ _)
        · intro k hk
          rcases List.mem_cons.mp hk with hk | hk
          · exact hk ▸ hkey
          · intro hkseen
            exact (hfresh _ hk) (List.mem_cons_of_mem _ hkseen)
        · intro s hs
          rcases List.mem_cons.mp hs with hs | hs
          · exact hs ▸ hne
          · exact hstat s hs

/-- Across a whole run, the stage relay reports pairwise-distinct keys,
none already seen at the start, and never the `NOT_EXECUTED` sentinel. -/
theorem runStageRelay_spec (snaps : List (List StageInfo)) :
    ∀ seen : List String,
      ((runStageRelay seen snaps).map stageKey).Nodup ∧
      (∀ k ∈ (runStageRelay seen snaps).map stageKey, k ∉ seen) ∧
      (∀ s ∈ runStageRelay seen snaps, s.status ≠ "NOT_EXECUTED") := by
  induction snaps with
  | nil => intro seen; simp [runStageRelay]
  | cons snap snaps ih =>
      intro seen
      obtain ⟨hnd, hfresh, hstat⟩ := checkStages_reports snap seen
      obtain ⟨ihnd, ihfresh, ihstat⟩ := ih (checkStages seen snap).1
      simp only [runStageRelay, List.map_append]
      refine ⟨?_, ?_, ?_⟩
      · refine List.nodup_append.mpr ⟨hnd, ihnd, ?_⟩
        intro k hk hk'
        have : k ∈ (checkStages seen snap).1 :=
          (checkStages_seen_mem snap seen k).mpr (Or.inl hk)
        exact ihfresh k hk' this
      · intro k hk
        rcases List.mem_append.mp hk with hk | hk
        · exact hfresh k hk
        · intro hkseen
          exact ihfresh k hk ((checkStages_seen_mem snap seen k).mpr (Or.inr hkseen))
      · intro s hs
        rcases List.mem_append.mp hs with hs | hs
        · exact hstat s hs
        · exact ihstat s hs

/-- C1: across one orchestration run the stage relay reports each distinct
`(name, status)` pair at most once, skips `NOT_EXECUTED` stages, and the
snapshot sequence `[Build:SUCCESS]`, `[Build:SUCCESS, Deploy:IN_PROGRESS]`,
`[Build:SUCCESS, Deploy:SUCCESS]` yields exactly 3 transition reports. -/
theorem stageRelay_dedup :
    (∀ snaps : List (List StageInfo),
      ((runStageRelay [] snaps).map (fun s => (s.name, s.status))).Nodup) ∧
    (∀ snaps : List (List StageInfo), ∀ s ∈ runStageRelay [] snaps,
      s.status ≠ "NOT_EXECUTED") ∧
    (runStageRelay []
        [[⟨"Build", "SUCCESS", some 5000⟩],
         [⟨"Build", "SUCCESS", some 5000⟩, ⟨"Deploy", "IN_PROGRESS", some 2000⟩],
         [⟨"Build", "SUCCESS", some 5000⟩, ⟨"Deploy", "SUCCESS", some 4000⟩]]).length
      = 3 := by
  refine ⟨?_, ?_, by decide⟩
  · intro snaps
    have hnd := (runStageRelay_spec snaps []).1
    have hmap : (runStageRelay [] snaps).map stageKey =
        ((runStageRelay [] snaps).map (fun s => (s.name, s.status))).map
          (fun p => p.1 ++ "-" ++ p.2) := by
      simp [List.map_map, stageKey, Function.comp]
    rw [hmap] at hnd
    exact hnd.of_map _
  · intro snaps
    exact (runStageRelay_spec snaps []).2.2

/-- Witness for C1 at a concrete snapshot sequence. -/
theorem stageRelay_dedup_witness :
    (⟨"Build", "SUCCESS", none⟩ : StageInfo).status ≠ "NOT_EXECUTED" :=
  stageRelay_dedup.2.1 [[⟨"Build", "SUCCESS", none⟩]]
    ⟨"Build", "SUCCESS", none⟩ (by decide)

/-- C3: after the log stream ends the orchestrator keeps polling
`getBuildStatus` on a fixed 2-second delay and reports no terminal label while
every poll still says `building`; once a poll returns `building = false` it
performs the final status fetch and only then emits the terminal
status+duration report, built from that final fetch. -/
theorem waitForCompletion_terminal_after_not_building :
    (∀ polls : List JenkinsBuildJson, (∀ s ∈ polls, s.building = true) →
      ∀ r d, OrchestratorEvent.reportTerminal r d ∉ waitForCompletion polls) ∧
    (∀ (pre : List JenkinsBuildJson) (s f : JenkinsBuildJson)
        (rest : List JenkinsBuildJson),
      (∀ q ∈ pre, q.building = true) → s.building = false →
      waitForCompletion (pre ++ s :: f :: rest) =
        (pre.map fun q => [OrchestratorEvent.wait 2000,
            OrchestratorEvent.pollStatus q.building]).flatten ++
          [OrchestratorEvent.wait 2000, OrchestratorEvent.pollStatus false,
           OrchestratorEvent.pollStatus f.building,
           OrchestratorEvent.reportTerminal f.result f.duration]) := by
  constructor
  · intro polls
    induction polls with
    | nil => intro _ r d; simp [waitForCompletion]
    | cons s rest ih =>
        intro h r d
        have hs : s.building = true := h s (List.mem_cons_self _ _)
        simp only [waitForCompletion, hs, if_pos]
        intro hmem
        rcases List.mem_cons.mp hmem with h1 | hmem
        · exact OrchestratorEvent.noConfusion h1
        rcases List.mem_cons.mp hmem with h1 | hmem
        · exact OrchestratorEvent.noConfusion h1
        · exact ih (fun q hq => h q (List.mem_cons_of_mem _ hq)) r d hmem
  · intro pre
    induction pre with
    | nil =>
        intro s f rest _ hs
        simp [waitForCompletion, hs, finalReport]
    | cons q pre ih =>
        intro s f rest h hs
        have hq : q.building = true := h q (List.mem_cons_self _ _)
        have ih' := ih s f rest (fun x hx => h x (List.mem_cons_of_mem _ hx)) hs
        calc waitForCompletion ((q :: pre) ++ s :: f :: rest)
            = OrchestratorEvent.wait 2000 :: OrchestratorEvent.pollStatus q.building ::
                waitForCompletion (pre ++ s :: f :: rest) := by
              simp [waitForCompletion, hq]
          _ = _ := by
              rw [ih']
              simp [hq]

/-- Witness for C3 at a one-poll-then-done trace. -/
theorem waitForCompletion_terminal_witness :
    waitForCompletion
        [⟨7, true, none, 0, 0⟩, ⟨7, false, some "SUCCESS", 9, 1⟩,
         ⟨7, false, some "SUCCESS", 9000, 1⟩] =
      ([(⟨7, true, none, 0, 0⟩ : JenkinsBuildJson)].map fun q =>
          [OrchestratorEvent.wait 2000, OrchestratorEvent.pollStatus q.building]).flatten ++
        [OrchestratorEvent.wait 2000, OrchestratorEvent.pollStatus false,
         OrchestratorEvent.pollStatus false,
         OrchestratorEvent.reportTerminal (some "SUCCESS") 9000] :=
  waitForCompletion_terminal_after_not_building.2
    [⟨7, true, none, 0, 0⟩] ⟨7, false, some "SUCCESS", 9, 1⟩
    ⟨7, false, some "SUCCESS", 9000, 1⟩ [] (by decide) (by decide)

/-- Every name in a list occurs inside its comma-join. -/
theorem mem_joinComma (names : List String) (n : String) (h : n ∈ names) :
    ∃ pre post, pre ++ n ++ post = joinComma names := by
  induction names with
  | nil => cases h
  | cons a rest ih =>
      cases rest with
      | nil =>
          have : n = a := by simpa using h
          subst this
          exact ⟨"", "", by simp [joinComma]⟩
      | cons b rs =>
          rcases List.mem_cons.mp h with h | h
          · subst h
            refine ⟨"", ", " ++ joinComma (b :: rs), ?_⟩
            simp [joinComma, String.append_assoc]
          · obtain ⟨pre, post, hpp⟩ := ih h
            refine ⟨a ++ ", " ++ pre, post, ?_⟩
            rw [show joinComma (a :: b :: rs) = a ++ ", " ++ joinComma (b :: rs) from rfl,
              ← hpp]
            simp [String.append_assoc]

/-- C7: when the resolved provider name (`props.provider`, else
`props.ci_provider`, else the default `jenkins`) is not registered, the build
handler fails immediately with an error whose message names every registered
provider, and none of the later steps (trigger, log streaming, status
polling) runs. -/
theorem handleBuildAction_unknown_provider
    (provider ci_provider : Option String) (registry : List (String × Provider))
    (h : getProvider registry (resolveProviderName provider ci_provider) = none) :
    handleBuildAction provider ci_provider registry =
      Except.error (unknownProviderMessage (resolveProviderName provider ci_provider)
        (getProviderNames registry)) ∧
    (∀ steps, handleBuildAction provider ci_provider registry ≠ Except.ok steps) ∧
    (∀ e ∈ registry, ∃ pre post,
      pre ++ e.1 ++ post =
        unknownProviderMessage (resolveProviderName provider ci_provider)
          (getProviderNames registry)) := by
  refine ⟨by simp [handleBuildAction, h], by simp [handleBuildAction, h], ?_⟩
  intro e he
  obtain ⟨pre, post, hpp⟩ :=
    mem_joinComma (getProviderNames registry) e.1 (List.mem_map_of_mem _ he)
  refine ⟨"CI/CD provider '" ++ resolveProviderName provider ci_provider ++
    "' is not registered. Available providers: " ++ pre, post, ?_⟩
  rw [unknownProviderMessage, ← hpp]
  simp [String.append_assoc]

/-- Witness for C7: scenario D, requesting provider `x` against a registry
holding only `jenkins`. -/
theorem handleBuildAction_unknown_provider_witness :
    handleBuildAction (some "x") none [("jenkins", ⟨"jenkins", true, 0⟩)] =
      Except.error (unknownProviderMessage "x" ["jenkins"]) :=
  (handleBuildAction_unknown_provider (some "x") none
    [("jenkins", ⟨"jenkins", true, 0⟩)] (by decide)).1

/-- Looking up the key just written by `mapSet` yields the new value. -/
theorem lookup_mapSet_self (m : List (String × Provider)) (k : String) (v : Provider) :
    (mapSet m k v).lookup k = some v := by
  induction m with
  | nil => simp [mapSet, List.lookup]
  | cons e m ih =>
      obtain ⟨n, pv⟩ := e
      by_cases he : n = k
      · simp [mapSet, he, List.lookup]
      · have hb : (k == n) = false := beq_eq_false_iff_ne.mpr (Ne.symm he)
        simpa [mapSet, he, List.lookup, hb] using ih

/-- C10: `register` is atomic on validation failure — the registry map is
untouched, so `getProvider` answers exactly as before; on validation success
the map is updated and `getProvider` returns the new instance. -/
theorem register_atomic (m : List (String × Provider)) (p : Provider) :
    (p.valid = false →
      (register m p).1 = m ∧ (register m p).2 = false ∧
      ∀ name, getProvider (register m p).1 name = getProvider m name) ∧
    (p.valid = true →
      (register m p).2 = true ∧
      getProvider (register m p).1 p.name = some p) := by
  constructor
  · intro h
    refine ⟨by simp [register, h], by simp [register, h], fun name => by simp [register, h]⟩
  · intro h
    exact ⟨by simp [register, h], by simp [register, h, getProvider, lookup_mapSet_self]⟩

/-- Witness for C10: registering an invalidly configured provider under an
already-taken name leaves the earlier instance in place. -/
theorem register_atomic_witness :
    (register [("jenkins", ⟨"jenkins", true, 0⟩)] ⟨"jenkins", false, 1⟩).1 =
      [("jenkins", ⟨"jenkins", true, 0⟩)] ∧
    getProvider (register [("jenkins", ⟨"jenkins", true, 0⟩)] ⟨"jenkins", false, 1⟩).1
        "jenkins" =
      getProvider [("jenkins", ⟨"jenkins", true, 0⟩)] "jenkins" :=
  ⟨((register_atomic [("jenkins", ⟨"jenkins", true, 0⟩)] ⟨"jenkins", false, 1⟩).1 rfl).1,
   ((register_atomic [("jenkins", ⟨"jenkins", true, 0⟩)] ⟨"jenkins", false, 1⟩).1 rfl).2.2
     "jenkins"⟩

/-- C8: if the entity-upsert step after a successful build throws any value —
including a plain string — the exception is caught: the handler still
completes successfully, exactly one warning log containing `Failed to create
entity` is emitted, and the already-reported terminal build outcome (the
first event of the tail) is unaffected by the thrown value. -/
theorem buildSuccessTail_entity_failure :
    (∀ (n : Nat) (result ident bp s : String),
      ((buildSuccessTail n result ident bp (Except.error (JsVal.str s))).1.filter
          SinkEvent.isWarn) =
        [SinkEvent.loggerWarn ("Failed to create entity: " ++ "undefined")]) ∧
    (∀ (n : Nat) (result ident bp : String) (u : Except JsVal Unit),
      (buildSuccessTail n result ident bp u).2 = true) ∧
    (∀ (n : Nat) (result ident bp : String) (u : Except JsVal Unit),
      (buildSuccessTail n result ident bp u).1.head? =
        some (SinkEvent.reportTerminal ("Build " ++ result))) ∧
    (∃ pre post, pre ++ "Failed to create entity" ++ post =
      "Failed to create entity: " ++ "undefined") := by
  refine ⟨?_, fun n result ident bp u => rfl, fun n result ident bp u => rfl,
    "", ": undefined", by decide⟩
  intro n result ident bp s
  simp [buildSuccessTail, entityPhase, jsMessage, SinkEvent.isWarn, List.filter]

/-- C9 counterexample: `normalizeBuildData` is not a function of its input
alone — with the `timestamp` field absent, the result changes with the
ambient clock (`providerData.timestamp || Date.now()`). -/
theorem normalizeBuildData_clock_dependent :
    normalizeBuildData "job" ⟨none, none, none, none, none, none, none, none⟩ 1 ≠
      normalizeBuildData "job" ⟨none, none, none, none, none, none, none, none⟩ 2 := by
  decide

/-- C9 (amended): `parseWebhookPayload` and `normalizeBuildData` are total —
no partial or missing input raises — and every output field defaults as
documented (empty string for `buildId`/`buildUrl`/`result`, 0 for
`buildNumber`, null for `duration`, the configured job name for `jobName`);
the output depends only on the input and the current clock time, which is
consulted solely for the default `timestamp` when the input timestamp is
absent (or 0, which JS `||` treats like absent). -/
theorem normalizeBuildData_defaults :
    (∀ payload : WebhookPayload,
      parseWebhookPayload payload =
        ⟨payload.buildNumber.map toString, payload.buildNumber, payload.buildUrl,
         payload.jobName, some (mapJenkinsStatus payload.status), payload.status,
         payload.duration, payload.timestamp⟩) ∧
    (∀ (cfg : String) (p : PartialBuildData) (now : Nat),
      (p.buildNumber = none → (normalizeBuildData cfg p now).buildId = "" ∧
        (normalizeBuildData cfg p now).buildNumber = 0) ∧
      (p.buildUrl = none → (normalizeBuildData cfg p now).buildUrl = "") ∧
      (p.result = none → (normalizeBuildData cfg p now).result = "") ∧
      (p.duration = none → (normalizeBuildData cfg p now).duration = none) ∧
      (p.timestamp = none → (normalizeBuildData cfg p now).timestamp = now) ∧
      (p.jobName = none → (normalizeBuildData cfg p now).jobName = cfg)) ∧
    (∀ (cfg : String) (p : PartialBuildData) (now1 now2 t : Nat),
      p.timestamp = some t → t ≠ 0 →
      normalizeBuildData cfg p now1 = normalizeBuildData cfg p now2) := by
  refine ⟨fun payload => rfl, ?_, ?_⟩
  · intro cfg p now
    refine ⟨?_, ?_, ?_, ?_, ?_, ?_⟩ <;> intro h <;>
      simp [normalizeBuildData, jsOrStr, jsOrNat, jsOrNull, h]
  · intro cfg p now1 now2 t ht hnz
    simp [normalizeBuildData, jsOrNat, ht, hnz]

/-- Witness for C9 (amended) at a fully absent partial input. -/
theorem normalizeBuildData_defaults_witness :
    (normalizeBuildData "test-job" ⟨none, none, none, none, none, none, none, none⟩ 99).buildId
        = "" ∧
    (normalizeBuildData "test-job" ⟨none, none, none, none, none, none, none, none⟩ 99).timestamp
        = 99 ∧
    normalizeBuildData "test-job" ⟨none, none, none, none, none, none, none, some 5⟩ 1 =
      normalizeBuildData "test-job" ⟨none, none, none, none, none, none, none, some 5⟩ 2 :=
  ⟨((normalizeBuildData_defaults.2.1 "test-job"
      ⟨none, none, none, none, none, none, none, none⟩ 99).1 rfl).1,
   (normalizeBuildData_defaults.2.1 "test-job"
      ⟨none, none, none, none, none, none, none, none⟩ 99).2.2.2.2.1 rfl,
   normalizeBuildData_defaults.2.2 "test-job"
      ⟨none, none, none, none, none, none, none, some 5⟩ 1 2 5 rfl (by decide)⟩

/-- C4: five consecutive poll failures make `streamLogs` reject with the
`failed after 5 attempts` message after exactly 5 requests (nothing after the
fifth failure is touched — the count is 5 for every continuation of the
trace); a successful poll resets the consecutive-error counter to 0 and
advances the offset; a non-fatal failure retries at the same offset with the
counter bumped. -/
theorem streamLogs_retry_bound :
    (∀ (rest : List PollOutcome) (start : Nat),
      streamLogs (List.replicate 5 PollOutcome.err ++ rest) start 0 =
        StreamResult.failed "Failed to stream logs after 5 attempts" 5) ∧
    (∀ (p : LogPoll) (rest : List PollOutcome) (start errs : Nat), p.more = true →
      streamLogs (PollOutcome.ok p :: rest) start errs =
        afterPoll (if p.text.drop start = [] then [] else [p.text.drop start])
          (streamLogs rest p.text.length 0)) ∧
    (∀ (rest : List PollOutcome) (start errs : Nat), errs + 1 < maxConsecutiveErrors →
      streamLogs (PollOutcome.err :: rest) start errs =
        afterPoll [] (streamLogs rest start (errs + 1))) := by
  refine ⟨?_, ?_, ?_⟩
  · intro rest start
    show streamLogs (PollOutcome.err :: PollOutcome.err :: PollOutcome.err ::
      PollOutcome.err :: PollOutcome.err :: rest) start 0 = _
    norm_num [streamLogs, maxConsecutiveErrors, afterPoll]
    rfl
  · intro p rest start errs h
    simp [streamLogs, h]
  · intro rest start errs h
    simp [streamLogs, Nat.not_le.mpr h]

/-- Witness for C4 at concrete traces. -/
theorem streamLogs_retry_bound_witness :
    streamLogs (List.replicate 5 PollOutcome.err ++ []) 0 0 =
      StreamResult.failed "Failed to stream logs after 5 attempts" 5 ∧
    streamLogs [PollOutcome.ok ⟨"ab".data, true⟩] 7 3 =
      afterPoll (if ("ab".data.drop 7) = [] then [] else [("ab".data.drop 7)])
        (streamLogs [] "ab".data.length 0) ∧
    streamLogs [PollOutcome.err] 7 0 = afterPoll [] (streamLogs [] 7 1) :=
  ⟨streamLogs_retry_bound.1 [] 0,
   streamLogs_retry_bound.2.1 ⟨"ab".data, true⟩ [] 7 3 rfl,
   streamLogs_retry_bound.2.2 [] 7 0 (by decide)⟩

/-- Telescoping step for a growing console text: dropping `n` from a snapshot
and continuing from its length inside a larger snapshot covers exactly the
larger snapshot from `n`. -/
theorem drop_of_prefix_append {s t : List Char} (h : s <+: t) {n : Nat}
    (hn : n ≤ s.length) : s.drop n ++ t.drop s.length = t.drop n := by
  obtain ⟨u, rfl⟩ := h
  rw [List.drop_left, List.drop_append_eq_append_drop, Nat.sub_eq_zero_of_le hn,
    List.drop_zero]

/-- Running `streamLogs` over successful polls whose `x-more-data` flag holds
until the final one: it finishes after exactly one request per poll up to and
including the first `false`, and the delivered chunks concatenate to the
final console text from the starting offset. -/
theorem streamLogs_ok_run (front : List LogPoll) :
    ∀ (lastp : LogPoll) (rest : List PollOutcome) (start : Nat),
      (∀ p ∈ front, p.more = true) → lastp.more = false →
      List.Pairwise (· <+: ·) ((front ++ [lastp]).map LogPoll.text) →
      (∀ t ∈ (front ++ [lastp]).map LogPoll.text, start ≤ t.length) →
      ∃ chunks,
        streamLogs (front.map PollOutcome.ok ++ PollOutcome.ok lastp :: rest) start 0 =
          StreamResult.finished chunks (front.length + 1) ∧
        chunks.flatten = lastp.text.drop start := by
  induction front with
  | nil =>
      intro lastp rest start _ hlast _ _
      refine ⟨if lastp.text.drop start = [] then [] else [lastp.text.drop start], ?_, ?_⟩
      · simp [streamLogs, hlast]
      · by_cases h : lastp.text.drop start = [] <;> simp [h]
  | cons f fs ih =>
      intro lastp rest start hmore hlast hpw hlen
      have hf : f.more = true := hmore f (List.mem_cons_self _ _)
      have hpw2 : List.Pairwise (· <+: ·)
          (f.text :: (fs ++ [lastp]).map LogPoll.text) := by
        simpa only [List.cons_append, List.map_cons] using hpw
      obtain ⟨hhead, htail⟩ := List.pairwise_cons.mp hpw2
      have hlen' : ∀ t ∈ (fs ++ [lastp]).map LogPoll.text, f.text.length ≤ t.length := by
        intro t ht
        exact (hhead t ht).length_le
      obtain ⟨cs, hrun, hflat⟩ :=
        ih lastp rest f.text.length (fun p hp => hmore p (List.mem_cons_of_mem _ hp))
          hlast htail hlen'
      have hflast : f.text <+: lastp.text := by
        refine hhead lastp.text ?_
        simp
      have hstart : start ≤ f.text.length := by
        refine hlen f.text ?_
        simp
      refine ⟨(if f.text.drop start = [] then [] else [f.text.drop start]) ++ cs, ?_, ?_⟩
      · have hstep : streamLogs ((f :: fs).map PollOutcome.ok ++
            PollOutcome.ok lastp :: rest) start 0 =
            afterPoll (if f.text.drop start = [] then [] else [f.text.drop start])
              (streamLogs (fs.map PollOutcome.ok ++ PollOutcome.ok lastp :: rest)
                f.text.length 0) := by
          simp [streamLogs, hf]
        rw [hstep, hrun]
        simp [afterPoll]
      · have hdrop : f.text.drop start ++ lastp.text.drop f.text.length =
            lastp.text.drop start := drop_of_prefix_append hflast hstart
        by_cases h : f.text.drop start = []
        · rw [if_pos h, List.nil_append, hflat, ← hdrop, h, List.nil_append]
        · rw [if_neg h, List.singleton_append, List.flatten_cons, hflat, hdrop]

/-- The first poll whose `x-more-data` flag is off fixes the complete console
text that `getCompleteLogs` fetches. -/
theorem getCompleteLogs_first_false (front : List LogPoll) :
    ∀ (lastp : LogPoll) (rest : List PollOutcome),
      (∀ p ∈ front, p.more = true) → lastp.more = false →
      getCompleteLogs (front.map PollOutcome.ok ++ PollOutcome.ok lastp :: rest) =
        some lastp.text := by
  induction front with
  | nil => intro lastp rest _ hlast; simp [getCompleteLogs, hlast]
  | cons f fs ih =>
      intro lastp rest hmore hlast
      have hf : f.more = true := hmore f (List.mem_cons_self _ _)
      simp only [List.map_cons, List.cons_append, getCompleteLogs, hf, if_pos]
      exact ih lastp rest (fun p hp => hmore p (List.mem_cons_of_mem _ hp)) hlast

/-- C2: over any trace whose polls succeed, report `x-more-data` until a
final `false`, and carry a console text that only grows (each snapshot a
prefix of the next), `streamLogs` terminates exactly at the first poll whose
more-data signal is false — one request per poll, independent of anything
after — and the chunks delivered to `onLogChunk` concatenate to exactly the
complete log `getCompleteLogs` returns. -/
theorem streamLogs_complete_concatenation (front : List LogPoll) (lastp : LogPoll)
    (rest : List PollOutcome)
    (hfront : ∀ p ∈ front, p.more = true) (hlast : lastp.more = false)
    (hchain : List.Pairwise (· <+: ·) ((front ++ [lastp]).map LogPoll.text)) :
    ∃ chunks,
      streamLogs (front.map PollOutcome.ok ++ PollOutcome.ok lastp :: rest) 0 0 =
        StreamResult.finished chunks (front.length + 1) ∧
      chunks.flatten = lastp.text ∧
      getCompleteLogs (front.map PollOutcome.ok ++ PollOutcome.ok lastp :: rest) =
        some lastp.text := by
  obtain ⟨chunks, hrun, hflat⟩ :=
    streamLogs_ok_run front lastp rest 0 hfront hlast hchain
      (fun t _ => Nat.zero_le _)
  exact ⟨chunks, hrun, by simpa using hflat,
    getCompleteLogs_first_false front lastp rest hfront hlast⟩

/-- Witness for C2 at a two-poll trace delivering `chunk1` then `chunk2`. -/
theorem streamLogs_complete_concatenation_witness :
    ∃ chunks,
      streamLogs ([(⟨"chunk1".data, true⟩ : LogPoll)].map PollOutcome.ok ++
          PollOutcome.ok ⟨"chunk1chunk2".data, false⟩ :: []) 0 0 =
        StreamResult.finished chunks 2 ∧
      chunks.flatten = "chunk1chunk2".data ∧
      getCompleteLogs ([(⟨"chunk1".data, true⟩ : LogPoll)].map PollOutcome.ok ++
          PollOutcome.ok ⟨"chunk1chunk2".data, false⟩ :: []) =
        some "chunk1chunk2".data :=
  streamLogs_complete_concatenation [⟨"chunk1".data, true⟩]
    ⟨"chunk1chunk2".data, false⟩ [] (by decide) rfl
    (by
      show List.Pairwise (· <+: ·) ["chunk1".data, "chunk1chunk2".data]
      refine List.pairwise_cons.mpr ⟨?_, by simp⟩
      intro t ht
      rw [List.mem_singleton] at ht
      subst ht
      exact ⟨"chunk2".data, rfl⟩)

end LogsStreaming
